import Mathlib

/-!
Verification of the MarketPulse real-time market-data layer
(`src/sources/binance.py`) against its design specification.

The Python module is shallowly embedded: pure data classes become Lean
structures, the in-memory caches become explicit function maps that are
threaded through each operation, the retrying HTTP request loop becomes a
structurally recursive function producing an event trace, and the
WebSocket stop/receive-loop interaction becomes a labelled step relation.
Machine floats in the source only ever carry parsed market numbers, so
they are modelled as rationals; `float(...)` string-conversion failure is
modelled by an explicit `Option`.
-/

/-- `CryptoPrice` dataclass (src/sources/binance.py, lines 18-30):
symbol, price and an ISO timestamp captured at construction time.
The construction-time clock is passed in explicitly as a string. -/
structure CryptoPrice where
  symbol : String
  price : Rat
  timestamp : String
deriving DecidableEq

/-- `Ticker24h` dataclass (lines 60-82): 24-hour rolling statistics. -/
structure Ticker24h where
  symbol : String
  price_change : Rat
  price_change_percent : Rat
  last_price : Rat
  high_price : Rat
  low_price : Rat
  volume : Rat
  quote_volume : Rat
deriving DecidableEq

/-- `Kline` dataclass (lines 33-57): one candle. `open` is a Lean keyword,
so that field is called `open_p` here; all other names follow the source. -/
structure Kline where
  open_time : Int
  open_p : Rat
  high : Rat
  low : Rat
  close : Rat
  volume : Rat
  close_time : Int
  quote_volume : Rat
  trades : Int
deriving DecidableEq

/-- One raw kline row of the upstream response array
(`data[i]` with indices 0..8 as read in lines 286-296). -/
structure RawKlineRow where
  openTime : Int
  openP : Rat
  high : Rat
  low : Rat
  close : Rat
  volume : Rat
  closeTime : Int
  quoteVolume : Rat
  trades : Int
deriving DecidableEq

/-- The per-row parse of lines 286-296: `Kline(open_time=item[0], ...)`.
The `float()` conversions on already-numeric row entries are identities. -/
def parseKline (item : RawKlineRow) : Kline :=
  { open_time := item.openTime
    open_p := item.openP
    high := item.high
    low := item.low
    close := item.close
    volume := item.volume
    close_time := item.closeTime
    quote_volume := item.quoteVolume
    trades := item.trades }

/-- The Binance-related fields of `Settings` (src/config/base.py,
lines 96-106). The TTL dict literal is kept as an association list. -/
structure Settings where
  BINANCE_WS_SYMBOLS : List String
  BINANCE_WS_RECONNECT_DELAY : Nat
  BINANCE_REST_TIMEOUT : Nat
  BINANCE_REST_RETRY_COUNT : Nat
  BINANCE_KLINE_CACHE_TTL : List (String × Nat)

/-- The global `settings` instance with the values of src/config/base.py. -/
def settings : Settings :=
  { BINANCE_WS_SYMBOLS := ["BTCUSDT", "ETHUSDT"]
    BINANCE_WS_RECONNECT_DELAY := 5
    BINANCE_REST_TIMEOUT := 10
    BINANCE_REST_RETRY_COUNT := 2
    BINANCE_KLINE_CACHE_TTL :=
      [("1m", 30), ("15m", 300), ("1h", 900), ("4h", 1800), ("1d", 7200)] }

/-- `settings.BINANCE_KLINE_CACHE_TTL.get(interval, 60)` (line 107):
dict lookup with default 60. -/
def klineTTL (interval : String) : Nat :=
  ((settings.BINANCE_KLINE_CACHE_TTL.lookup interval).getD 60)

/-- One stored entry of `KlineCache._cache`: `{"data": ..., "timestamp": ...}`
(lines 118-121). Timestamps are `time.time()` values, modelled as rationals. -/
structure KlineCacheEntry where
  data : List Kline
  timestamp : Rat

/-- The `KlineCache._cache` dict, as a map from cache-key strings to entries. -/
def KlineCacheStore : Type := String → Option KlineCacheEntry

namespace KlineCache

/-- `KlineCache.get(key, interval)` (lines 100-113), with the current clock
`now` passed explicitly. Returns the looked-up series (or `none`) together
with the store after the call: an entry older than its TTL is deleted
(`del self._cache[cache_key]`) and reported as a miss. -/
def get (store : KlineCacheStore) (now : Rat) (key interval : String) :
    Option (List Kline) × KlineCacheStore :=
  match store (key ++ ":" ++ interval) with
  | none => (none, store)
  | some entry =>
    if now - entry.timestamp > (klineTTL interval : Rat) then
      (none, fun k => if k = key ++ ":" ++ interval then none else store k)
    else
      (some entry.data, store)

/-- `KlineCache.set(key, interval, data)` (lines 115-121), with the clock
`now` standing for `time.time()` at call time. -/
def set (store : KlineCacheStore) (now : Rat) (key interval : String)
    (data : List Kline) : KlineCacheStore :=
  fun k => if k = key ++ ":" ++ interval then some ⟨data, now⟩ else store k

/-- Whether a `get` would be a hit (its returned series is present). -/
def isHit (store : KlineCacheStore) (now : Rat) (key interval : String) : Bool :=
  ((get store now key interval).1).isSome

end KlineCache

/-- Python negative-index slice `xs[-n:]` for a nonnegative `n` as used on
line 297: for `n = 0` it is `xs[0:]`, i.e. the whole list; otherwise the
last `min n (length xs)` elements. -/
def pyLastSlice (xs : List α) (n : Nat) : List α :=
  if n = 0 then xs else xs.drop (xs.length - n)

/-- Lines 282-298 of `get_klines`: drop the trailing row when more rows than
`limit` came back, take the last `limit` of the remainder, parse each row. -/
def klinesFromRows (data : List RawKlineRow) (limit : Nat) : List Kline :=
  (pyLastSlice (if data.length > limit then data.dropLast else data) limit).map
    parseKline

/-- Result of one `BinanceRestClient.get_klines` call: the returned series,
the cache store after the call, and the `limit` query parameter sent
upstream (`none` when the call was served from cache and no request left). -/
structure KlinesCall where
  klines : List Kline
  store : KlineCacheStore
  requestedLimit : Option Nat

namespace BinanceRestClient

/-- `BinanceRestClient.get_klines(symbol, interval, limit)` (lines 245-303).
`upstream` abstracts a successful `_request("/klines", ...)`: it maps the
`limit` query parameter actually sent to the row array the endpoint returns.
`now` is the `time.time()` clock shared by the embedded cache calls. -/
def get_klines (store : KlineCacheStore) (now : Rat)
    (upstream : Nat → List RawKlineRow) (symbol interval : String)
    (limit : Nat) : KlinesCall :=
  match (KlineCache.get store now (symbol ++ ":" ++ toString limit) interval).1 with
  | some data =>
    ⟨data, (KlineCache.get store now (symbol ++ ":" ++ toString limit) interval).2,
      none⟩
  | none =>
    ⟨klinesFromRows (upstream (limit + 1)) limit,
      KlineCache.set
        (KlineCache.get store now (symbol ++ ":" ++ toString limit) interval).2
        now (symbol ++ ":" ++ toString limit) interval
        (klinesFromRows (upstream (limit + 1)) limit),
      some (limit + 1)⟩

end BinanceRestClient

/-! ### Helper lemmas about the kline slicing -/

/-- On a cache miss `get_klines` issues one upstream request with query
parameter `limit + 1` and returns the slice of that response. -/
theorem get_klines_miss_eq (store : KlineCacheStore) (now : Rat)
    (upstream : Nat → List RawKlineRow) (symbol interval : String) (limit : Nat)
    (hmiss : (KlineCache.get store now (symbol ++ ":" ++ toString limit)
      interval).1 = none) :
    BinanceRestClient.get_klines store now upstream symbol interval limit =
      ⟨klinesFromRows (upstream (limit + 1)) limit,
        KlineCache.set
          (KlineCache.get store now (symbol ++ ":" ++ toString limit) interval).2
          now (symbol ++ ":" ++ toString limit) interval
          (klinesFromRows (upstream (limit + 1)) limit),
        some (limit + 1)⟩ := by
  unfold BinanceRestClient.get_klines
  rw [hmiss]

/-- When strictly more rows than `limit` arrive but no more than the
`limit + 1` actually requested, the slice drops exactly the last row. -/
theorem klinesFromRows_of_long (data : List RawKlineRow) (limit : Nat)
    (hgt : data.length > limit) (hle : data.length ≤ limit + 1) :
    klinesFromRows data limit = data.dropLast.map parseKline := by
  have hlen : data.length = limit + 1 := le_antisymm hle hgt
  have hdl : data.dropLast.length = limit := by
    rw [List.length_dropLast, hlen]
    omega
  unfold klinesFromRows pyLastSlice
  rw [if_pos hgt]
  rcases Nat.eq_zero_or_pos limit with h0 | hpos
  · subst h0
    rw [if_pos rfl]
  · rw [if_neg (Nat.pos_iff_ne_zero.mp hpos), hdl, Nat.sub_self, List.drop_zero]

/-- When at most `limit` rows arrive, every row is kept in order. -/
theorem klinesFromRows_of_short (data : List RawKlineRow) (limit : Nat)
    (hle : data.length ≤ limit) :
    klinesFromRows data limit = data.map parseKline := by
  have hnot : ¬ data.length > limit := by omega
  unfold klinesFromRows pyLastSlice
  rw [if_neg hnot]
  rcases Nat.eq_zero_or_pos limit with h0 | hpos
  · subst h0
    rw [if_pos rfl]
  · rw [if_neg (Nat.pos_iff_ne_zero.mp hpos), Nat.sub_eq_zero_of_le hle,
      List.drop_zero]

/-- The sliced, parsed series is a map of a sublist of the response rows. -/
theorem klinesFromRows_sublist (data : List RawKlineRow) (limit : Nat) :
    ∃ rows : List RawKlineRow,
      rows.Sublist data ∧ klinesFromRows data limit = rows.map parseKline := by
  unfold klinesFromRows pyLastSlice
  refine ⟨_, ?_, rfl⟩
  have hbase : (if data.length > limit then data.dropLast else data).Sublist
      data := by
    split
    · exact List.dropLast_sublist data
    · exact List.Sublist.refl data
  split
  · exact hbase
  · exact (List.drop_sublist _ _).trans hbase

/-- Claim C1.  On a cache miss, `get_klines` requests `limit + 1` rows
upstream; a response with more than `limit` rows (i.e. the full
`limit + 1` under the upstream cap) loses exactly its newest row and the
remaining `limit` rows come back oldest-first; a response with at most
`limit` rows is returned unmodified. -/
theorem C1_get_klines_discards_newest_on_miss (store : KlineCacheStore)
    (now : Rat) (upstream : Nat → List RawKlineRow) (symbol interval : String)
    (limit : Nat)
    (hmiss : (KlineCache.get store now (symbol ++ ":" ++ toString limit)
      interval).1 = none)
    (hcap : (upstream (limit + 1)).length ≤ limit + 1) :
    (BinanceRestClient.get_klines store now upstream symbol interval
        limit).requestedLimit = some (limit + 1) ∧
    ((upstream (limit + 1)).length > limit →
      (BinanceRestClient.get_klines store now upstream symbol interval
          limit).klines = (upstream (limit + 1)).dropLast.map parseKline ∧
      (BinanceRestClient.get_klines store now upstream symbol interval
          limit).klines.length = limit) ∧
    ((upstream (limit + 1)).length ≤ limit →
      (BinanceRestClient.get_klines store now upstream symbol interval
          limit).klines = (upstream (limit + 1)).map parseKline) := by
  rw [get_klines_miss_eq store now upstream symbol interval limit hmiss]
  refine ⟨rfl, fun hgt => ?_, fun hle => ?_⟩
  · have heq := klinesFromRows_of_long (upstream (limit + 1)) limit hgt hcap
    refine ⟨heq, ?_⟩
    rw [heq, List.length_map, List.length_dropLast]
    omega
  · exact klinesFromRows_of_short (upstream (limit + 1)) limit hle

/-- Witness for C1: three upstream rows with `limit = 2` yield exactly the
two oldest rows, after a request for `limit + 1 = 3` rows. -/
theorem C1_get_klines_discards_newest_on_miss_witness :
    (BinanceRestClient.get_klines (fun _ => none) 0
        (fun _ => [⟨0, 1, 2, 1, 2, 10, 59, 20, 3⟩,
          ⟨60, 2, 3, 2, 3, 11, 119, 22, 4⟩,
          ⟨120, 3, 4, 3, 4, 12, 179, 24, 5⟩])
        "BTCUSDT" "1h" 2).requestedLimit = some 3 ∧
    (BinanceRestClient.get_klines (fun _ => none) 0
        (fun _ => [⟨0, 1, 2, 1, 2, 10, 59, 20, 3⟩,
          ⟨60, 2, 3, 2, 3, 11, 119, 22, 4⟩,
          ⟨120, 3, 4, 3, 4, 12, 179, 24, 5⟩])
        "BTCUSDT" "1h" 2).klines =
      [⟨0, 1, 2, 1, 2, 10, 59, 20, 3⟩, ⟨60, 2, 3, 2, 3, 11, 119, 22, 4⟩] := by
  have h := C1_get_klines_discards_newest_on_miss (fun _ => none) 0
    (fun _ => [⟨0, 1, 2, 1, 2, 10, 59, 20, 3⟩,
      ⟨60, 2, 3, 2, 3, 11, 119, 22, 4⟩,
      ⟨120, 3, 4, 3, 4, 12, 179, 24, 5⟩])
    "BTCUSDT" "1h" 2 rfl (by decide)
  refine ⟨h.1, ?_⟩
  rw [(h.2.1 (by decide)).1]
  rfl

/-- Counterexample to claim C2 as stated.  A call at time 0 (cache clock and
call clock both 0) with `limit = 2` whose upstream response is the single —
hence trivially oldest-first — row closing at time 1000 returns that row
unfiltered: the returned series contains a candle whose `close_time` (1000)
is later than the call time (0), because the newest-row discard of
lines 282-283 only runs when more than `limit` rows come back. -/
theorem C2_get_klines_future_candle_cex :
    (BinanceRestClient.get_klines (fun _ => none) 0
        (fun _ => [⟨0, 1, 2, 1, 2, 10, 1000, 20, 3⟩])
        "BTCUSDT" "1h" 2).klines = [⟨0, 1, 2, 1, 2, 10, 1000, 20, 3⟩] ∧
    ((0 : Int) < (1000 : Int)) := by
  constructor
  · rfl
  · decide

/-- Claim C2, amended.  For a cache-miss call whose upstream response is
oldest-first (strictly increasing `open_time`) and no longer than the
`limit + 1` rows requested, the returned series is oldest-first with
strictly increasing `open_time` and has length at most `limit`; and
whenever the response holds more than `limit` rows and every row except
the newest is closed at the call time, no returned candle has a
`close_time` later than the call time.  (The unconditional "no future
`close_time`" of the original claim fails when at most `limit` rows come
back: then the response is passed through with no discard.) -/
theorem C2_get_klines_series_invariants_amended (store : KlineCacheStore)
    (now : Rat) (callTimeMs : Int) (upstream : Nat → List RawKlineRow)
    (symbol interval : String) (limit : Nat)
    (hmiss : (KlineCache.get store now (symbol ++ ":" ++ toString limit)
      interval).1 = none)
    (hsorted : (upstream (limit + 1)).Pairwise
      (fun a b : RawKlineRow => a.openTime < b.openTime))
    (hcap : (upstream (limit + 1)).length ≤ limit + 1) :
    (BinanceRestClient.get_klines store now upstream symbol interval
        limit).klines.Pairwise (fun a b : Kline => a.open_time < b.open_time) ∧
    (BinanceRestClient.get_klines store now upstream symbol interval
        limit).klines.length ≤ limit ∧
    ((upstream (limit + 1)).length > limit →
      (∀ r ∈ (upstream (limit + 1)).dropLast, r.closeTime ≤ callTimeMs) →
      ∀ k ∈ (BinanceRestClient.get_klines store now upstream symbol interval
        limit).klines, k.close_time ≤ callTimeMs) := by
  rw [get_klines_miss_eq store now upstream symbol interval limit hmiss]
  refine ⟨?_, ?_, ?_⟩
  · obtain ⟨rows, hsub, heq⟩ := klinesFromRows_sublist (upstream (limit + 1)) limit
    rw [heq, List.pairwise_map]
    exact (hsorted.sublist hsub :)
  · rcases Nat.lt_or_ge limit (upstream (limit + 1)).length with hgt | hle
    · rw [klinesFromRows_of_long (upstream (limit + 1)) limit hgt hcap,
        List.length_map, List.length_dropLast]
      omega
    · rw [klinesFromRows_of_short (upstream (limit + 1)) limit hle,
        List.length_map]
      omega
  · intro hgt hclosed k hk
    rw [klinesFromRows_of_long (upstream (limit + 1)) limit hgt hcap] at hk
    obtain ⟨r, hr, hparse⟩ := List.mem_map.mp hk
    rw [← hparse]
    exact hclosed r hr

/-- Witness for the amended C2: a three-row oldest-first response with
`limit = 2`, whose first two rows are closed at call time 200, yields a
strictly increasing series of length 2 with no future candle. -/
theorem C2_get_klines_series_invariants_amended_witness :
    (BinanceRestClient.get_klines (fun _ => none) 0
        (fun _ => [⟨0, 1, 2, 1, 2, 10, 59, 20, 3⟩,
          ⟨60, 2, 3, 2, 3, 11, 119, 22, 4⟩,
          ⟨120, 3, 4, 3, 4, 12, 1000, 24, 5⟩])
        "ETHUSDT" "1m" 2).klines.Pairwise
      (fun a b : Kline => a.open_time < b.open_time) ∧
    (BinanceRestClient.get_klines (fun _ => none) 0
        (fun _ => [⟨0, 1, 2, 1, 2, 10, 59, 20, 3⟩,
          ⟨60, 2, 3, 2, 3, 11, 119, 22, 4⟩,
          ⟨120, 3, 4, 3, 4, 12, 1000, 24, 5⟩])
        "ETHUSDT" "1m" 2).klines.length ≤ 2 ∧
    (∀ k ∈ (BinanceRestClient.get_klines (fun _ => none) 0
        (fun _ => [⟨0, 1, 2, 1, 2, 10, 59, 20, 3⟩,
          ⟨60, 2, 3, 2, 3, 11, 119, 22, 4⟩,
          ⟨120, 3, 4, 3, 4, 12, 1000, 24, 5⟩])
        "ETHUSDT" "1m" 2).klines, k.close_time ≤ (200 : Int)) := by
  have h := C2_get_klines_series_invariants_amended (fun _ => none) 0 200
    (fun _ => [⟨0, 1, 2, 1, 2, 10, 59, 20, 3⟩,
      ⟨60, 2, 3, 2, 3, 11, 119, 22, 4⟩,
      ⟨120, 3, 4, 3, 4, 12, 1000, 24, 5⟩])
    "ETHUSDT" "1m" 2 rfl (by decide) (by decide)
  exact ⟨h.1, h.2.1, h.2.2 (by decide) (by decide)⟩

/-! ### The unified service (`BinanceService`, lines 452-540) -/

namespace BinanceService

/-- `BinanceService.get_price(symbol)` (lines 473-492).  `wsPrices` is the
WebSocket client's `_prices` cache; `rest_price` abstracts a successful
`BinanceRestClient.get_price` call.  Besides the `(value, source)` pair the
embedding reports how many REST calls the invocation performed. -/
def get_price (wsPrices : String → Option CryptoPrice)
    (rest_price : String → CryptoPrice) (symbol : String) :
    (CryptoPrice × String) × Nat :=
  match wsPrices symbol with
  | some cached => ((cached, "websocket"), 0)
  | none => ((rest_price symbol, "rest"), 1)

/-- `BinanceService.get_24h_ticker(symbol)` (lines 494-513), analogous. -/
def get_24h_ticker (wsTickers : String → Option Ticker24h)
    (rest_ticker : String → Ticker24h) (symbol : String) :
    (Ticker24h × String) × Nat :=
  match wsTickers symbol with
  | some cached => ((cached, "websocket"), 0)
  | none => ((rest_ticker symbol, "rest"), 1)

end BinanceService

/-- Counterexample to claim C3 as stated.  With the stream cache holding an
entry for "BTCUSDT", `get_price` does return the cached value without a
REST call, but the source tag is the string "websocket" — not the literal
"stream" the claim names (and on the fallback path "rest", not "pull"). -/
theorem C3_service_source_tags_cex :
    (BinanceService.get_price
        (fun s => if s = "BTCUSDT" then some ⟨"BTCUSDT", 5, "t0"⟩ else none)
        (fun s => ⟨s, 0, "t1"⟩) "BTCUSDT").1.2 ≠ "stream" ∧
    (BinanceService.get_price
        (fun s => if s = "BTCUSDT" then some ⟨"BTCUSDT", 5, "t0"⟩ else none)
        (fun s => ⟨s, 0, "t1"⟩) "ETHUSDT").1.2 ≠ "pull" := by
  constructor
  · decide
  · decide

/-- Claim C3, amended: the source tags are the code's literals "websocket"
(stream cache hit) and "rest" (REST fallback) rather than the claim's
"stream"/"pull".  For every symbol: when the stream cache holds an entry,
both queries return that cached value tagged "websocket" with zero REST
calls; when it holds none, they perform exactly one REST call and return
its result tagged "rest" — no further retry or fallback across sources. -/
theorem C3_service_source_precedence_amended
    (wsPrices : String → Option CryptoPrice)
    (wsTickers : String → Option Ticker24h)
    (rest_price : String → CryptoPrice) (rest_ticker : String → Ticker24h)
    (symbol : String) :
    (∀ q, wsPrices symbol = some q →
      BinanceService.get_price wsPrices rest_price symbol =
        ((q, "websocket"), 0)) ∧
    (wsPrices symbol = none →
      BinanceService.get_price wsPrices rest_price symbol =
        ((rest_price symbol, "rest"), 1)) ∧
    (∀ t, wsTickers symbol = some t →
      BinanceService.get_24h_ticker wsTickers rest_ticker symbol =
        ((t, "websocket"), 0)) ∧
    (wsTickers symbol = none →
      BinanceService.get_24h_ticker wsTickers rest_ticker symbol =
        ((rest_ticker symbol, "rest"), 1)) := by
  refine ⟨fun q hq => ?_, fun hn => ?_, fun t ht => ?_, fun hn => ?_⟩
  · unfold BinanceService.get_price
    rw [hq]
  · unfold BinanceService.get_price
    rw [hn]
  · unfold BinanceService.get_24h_ticker
    rw [ht]
  · unfold BinanceService.get_24h_ticker
    rw [hn]

/-- Witness for the amended C3: a concrete hit for "BTCUSDT" and a concrete
miss for "ETHUSDT", on both query paths. -/
theorem C3_service_source_precedence_amended_witness :
    BinanceService.get_price
        (fun s => if s = "BTCUSDT" then some ⟨"BTCUSDT", 5, "t0"⟩ else none)
        (fun s => ⟨s, 7, "t1"⟩) "BTCUSDT" =
      ((⟨"BTCUSDT", 5, "t0"⟩, "websocket"), 0) ∧
    BinanceService.get_price
        (fun s => if s = "BTCUSDT" then some ⟨"BTCUSDT", 5, "t0"⟩ else none)
        (fun s => ⟨s, 7, "t1"⟩) "ETHUSDT" =
      ((⟨"ETHUSDT", 7, "t1"⟩, "rest"), 1) ∧
    BinanceService.get_24h_ticker (fun _ => none)
        (fun s => ⟨s, 1, 2, 3, 4, 5, 6, 7⟩) "BTCUSDT" =
      ((⟨"BTCUSDT", 1, 2, 3, 4, 5, 6, 7⟩, "rest"), 1) := by
  refine ⟨?_, ?_, ?_⟩
  · exact (C3_service_source_precedence_amended
      (fun s => if s = "BTCUSDT" then some ⟨"BTCUSDT", 5, "t0"⟩ else none)
      (fun _ => none) (fun s => ⟨s, 7, "t1"⟩) (fun s => ⟨s, 1, 2, 3, 4, 5, 6, 7⟩)
      "BTCUSDT").1 ⟨"BTCUSDT", 5, "t0"⟩ (by decide)
  · exact (C3_service_source_precedence_amended
      (fun s => if s = "BTCUSDT" then some ⟨"BTCUSDT", 5, "t0"⟩ else none)
      (fun _ => none) (fun s => ⟨s, 7, "t1"⟩) (fun s => ⟨s, 1, 2, 3, 4, 5, 6, 7⟩)
      "ETHUSDT").2.1 (by decide)
  · exact (C3_service_source_precedence_amended
      (fun s => if s = "BTCUSDT" then some ⟨"BTCUSDT", 5, "t0"⟩ else none)
      (fun _ => none) (fun s => ⟨s, 7, "t1"⟩) (fun s => ⟨s, 1, 2, 3, 4, 5, 6, 7⟩)
      "BTCUSDT").2.2.2 rfl

/-! ### The retrying request loop (`BinanceRestClient._request`, lines 145-195) -/

/-- What one `client.get` + `raise_for_status` attempt can do. -/
inductive HttpOutcome where
  | ok
  | timeout
  | httpError (code : Nat)
  | exn
deriving DecidableEq

/-- Observable events of one `_request` call: the fetch-status telemetry
(`start_fetch` / `complete_fetch`), each HTTP attempt, and each
`asyncio.sleep` (with its duration in seconds). -/
inductive ReqEvent where
  | fetchStart
  | attempt (i : Nat)
  | sleep (secs : Nat)
  | fetchComplete (success : Bool)
deriving DecidableEq

/-- How a `_request` call ends. -/
inductive ReqResult where
  | success
  | timeoutRaised
  | httpStatusRaised (code : Nat)
  | exnRaised
  | fellThrough
deriving DecidableEq

/-- The `for attempt in range(retryCount + 1)` body (lines 162-195), from
attempt index `a` with `rem` loop iterations left.  `resp i` is the outcome
of the `i`-th attempt.  A timeout on a non-final attempt sleeps 1 second
and continues; a final-attempt timeout, any HTTP status error and any
other exception are re-raised at once.  `fellThrough` marks the (never
reached in real use) exit of the loop without return or raise. -/
def requestGo (retryCount : Nat) (resp : Nat → HttpOutcome) :
    Nat → Nat → List ReqEvent × ReqResult
  | _, 0 => ([], .fellThrough)
  | a, rem + 1 =>
    match resp a with
    | .ok => ([.attempt a, .fetchComplete true], .success)
    | .timeout =>
      if a < retryCount then
        let rest := requestGo retryCount resp (a + 1) rem
        (.attempt a :: .sleep 1 :: rest.1, rest.2)
      else ([.attempt a, .fetchComplete false], .timeoutRaised)
    | .httpError code => ([.attempt a, .fetchComplete false],
        .httpStatusRaised code)
    | .exn => ([.attempt a, .fetchComplete false], .exnRaised)

namespace BinanceRestClient

/-- `_request` (lines 145-195) as an event trace plus final result:
`start_fetch` once, then the retry loop over `retryCount + 1` attempts. -/
def request (retryCount : Nat) (resp : Nat → HttpOutcome) :
    List ReqEvent × ReqResult :=
  (.fetchStart :: (requestGo retryCount resp 0 (retryCount + 1)).1,
    (requestGo retryCount resp 0 (retryCount + 1)).2)

end BinanceRestClient

/-- Number of HTTP attempts recorded in a trace. -/
def attemptCount (evs : List ReqEvent) : Nat :=
  (evs.filter fun e => match e with | .attempt _ => true | _ => false).length

/-- The sleep durations recorded in a trace, in order. -/
def sleepDurations (evs : List ReqEvent) : List Nat :=
  evs.filterMap fun e => match e with | .sleep d => some d | _ => none

/-- Counterexample to claim C4 as stated.  With the configured retry budget
(`settings.BINANCE_REST_RETRY_COUNT = 2`) and persistent timeouts, the
code does make exactly 3 attempts and raise a timeout, but it sleeps a
fixed 1 second between consecutive attempts (`await asyncio.sleep(1)`,
line 177) — the trace contains sleep events, refuting "no backoff between
them" read as no inter-attempt delay (the spec contrasts this policy with
the stream client's "fixed-delay" policy, so it asserts no delay here). -/
theorem C4_request_retry_no_backoff_cex :
    (BinanceRestClient.request settings.BINANCE_REST_RETRY_COUNT
        (fun _ => HttpOutcome.timeout)).1 =
      [.fetchStart, .attempt 0, .sleep 1, .attempt 1, .sleep 1, .attempt 2,
        .fetchComplete false] ∧
    ReqEvent.sleep 1 ∈ (BinanceRestClient.request
        settings.BINANCE_REST_RETRY_COUNT (fun _ => HttpOutcome.timeout)).1 := by
  constructor
  · rfl
  · decide

/-- Counting attempts ignores a leading attempt marker's companions. -/
theorem attemptCount_cons_attempt (i : Nat) (l : List ReqEvent) :
    attemptCount (.attempt i :: l) = attemptCount l + 1 := by
  simp [attemptCount, List.filter_cons]

/-- A sleep event does not count as an attempt. -/
theorem attemptCount_cons_sleep (d : Nat) (l : List ReqEvent) :
    attemptCount (.sleep d :: l) = attemptCount l := by
  simp [attemptCount, List.filter_cons]

/-- An attempt event contributes no sleep duration. -/
theorem sleepDurations_cons_attempt (i : Nat) (l : List ReqEvent) :
    sleepDurations (.attempt i :: l) = sleepDurations l := by
  simp [sleepDurations, List.filterMap_cons]

/-- A sleep event contributes its duration. -/
theorem sleepDurations_cons_sleep (d : Nat) (l : List ReqEvent) :
    sleepDurations (.sleep d :: l) = d :: sleepDurations l := by
  simp [sleepDurations, List.filterMap_cons]

/-- Inductive core for the persistent-timeout case of C4. -/
theorem requestGo_all_timeout (retryCount : Nat) (resp : Nat → HttpOutcome)
    (hto : ∀ i, resp i = HttpOutcome.timeout) :
    ∀ rem a, a + rem = retryCount + 1 → 1 ≤ rem →
      attemptCount (requestGo retryCount resp a rem).1 = rem ∧
      sleepDurations (requestGo retryCount resp a rem).1 =
        List.replicate (rem - 1) 1 ∧
      (requestGo retryCount resp a rem).2 = ReqResult.timeoutRaised := by
  intro rem
  induction rem with
  | zero => intro a _ h1; omega
  | succ r ih =>
    intro a hsum _
    rcases Nat.eq_zero_or_pos r with hr0 | hrpos
    · subst hr0
      have hnlt : ¬ a < retryCount := by omega
      simp only [requestGo, hto a, if_neg hnlt]
      refine ⟨?_, ?_, by trivial⟩
      · rw [attemptCount_cons_attempt]
        simp [attemptCount, List.filter_cons]
      · rw [sleepDurations_cons_attempt]
        simp [sleepDurations, List.filterMap_cons]
    · have halt : a < retryCount := by omega
      have hrec := ih (a + 1) (by omega) (by omega)
      simp only [requestGo, hto a, if_pos halt]
      refine ⟨?_, ?_, hrec.2.2⟩
      · rw [attemptCount_cons_attempt, attemptCount_cons_sleep, hrec.1]
      · rw [sleepDurations_cons_attempt, sleepDurations_cons_sleep, hrec.2.1]
        have h1 : r + 1 - 1 = r := by omega
        have h2 : r - 1 + 1 = r := by omega
        rw [h1, ← List.replicate_succ, h2]

/-- Claim C4, amended.  With retry budget `N` and persistent timeouts,
`_request` makes exactly `N + 1` attempts (`N` retries) separated by a
fixed 1-second sleep each — a constant, non-increasing delay rather than
the claimed absence of any delay — and then raises a timeout error.  A
non-timeout failure on the first attempt (HTTP status error or any other
exception) is raised immediately: one attempt, no sleep, no retry. -/
theorem C4_request_retry_policy_amended (N : Nat) (resp : Nat → HttpOutcome) :
    ((∀ i, resp i = HttpOutcome.timeout) →
      attemptCount (BinanceRestClient.request N resp).1 = N + 1 ∧
      sleepDurations (BinanceRestClient.request N resp).1 =
        List.replicate N 1 ∧
      (BinanceRestClient.request N resp).2 = ReqResult.timeoutRaised) ∧
    (∀ code, resp 0 = HttpOutcome.httpError code →
      (BinanceRestClient.request N resp).2 = ReqResult.httpStatusRaised code ∧
      attemptCount (BinanceRestClient.request N resp).1 = 1 ∧
      sleepDurations (BinanceRestClient.request N resp).1 = []) ∧
    (resp 0 = HttpOutcome.exn →
      (BinanceRestClient.request N resp).2 = ReqResult.exnRaised ∧
      attemptCount (BinanceRestClient.request N resp).1 = 1 ∧
      sleepDurations (BinanceRestClient.request N resp).1 = []) := by
  refine ⟨fun hto => ?_, fun code hc => ?_, fun hc => ?_⟩
  · have h := requestGo_all_timeout N resp hto (N + 1) 0 (by omega) (by omega)
    refine ⟨?_, ?_, h.2.2⟩
    · simpa [BinanceRestClient.request, attemptCount] using h.1
    · simpa [BinanceRestClient.request, sleepDurations] using h.2.1
  · simp [BinanceRestClient.request, requestGo, hc, attemptCount,
      sleepDurations]
  · simp [BinanceRestClient.request, requestGo, hc, attemptCount,
      sleepDurations]

/-- Witness for the amended C4 at the configured budget 2: persistent
timeouts give 3 attempts, two 1-second sleeps and a raised timeout, while
an immediate HTTP 500 gives one attempt, no sleep and an immediate raise. -/
theorem C4_request_retry_policy_amended_witness :
    (attemptCount (BinanceRestClient.request settings.BINANCE_REST_RETRY_COUNT
        (fun _ => HttpOutcome.timeout)).1 = 3 ∧
      sleepDurations (BinanceRestClient.request
        settings.BINANCE_REST_RETRY_COUNT
        (fun _ => HttpOutcome.timeout)).1 = List.replicate 2 1 ∧
      (BinanceRestClient.request settings.BINANCE_REST_RETRY_COUNT
        (fun _ => HttpOutcome.timeout)).2 = ReqResult.timeoutRaised) ∧
    ((BinanceRestClient.request settings.BINANCE_REST_RETRY_COUNT
        (fun _ => HttpOutcome.httpError 500)).2 =
        ReqResult.httpStatusRaised 500 ∧
      attemptCount (BinanceRestClient.request settings.BINANCE_REST_RETRY_COUNT
        (fun _ => HttpOutcome.httpError 500)).1 = 1 ∧
      sleepDurations (BinanceRestClient.request
        settings.BINANCE_REST_RETRY_COUNT
        (fun _ => HttpOutcome.httpError 500)).1 = []) := by
  constructor
  · exact (C4_request_retry_policy_amended settings.BINANCE_REST_RETRY_COUNT
      (fun _ => HttpOutcome.timeout)).1 (fun _ => rfl)
  · exact (C4_request_retry_policy_amended settings.BINANCE_REST_RETRY_COUNT
      (fun _ => HttpOutcome.httpError 500)).2.1 500 rfl

/-! ### Cache TTL behaviour (claims C5 and C6) -/

/-- Claim C5.  For any entry stored at time `t` under granularity
`interval`: a read at elapsed time strictly below the granularity's TTL is
a hit returning the stored series with the store untouched; a read at
elapsed time strictly above the TTL is a miss that deletes the entry at
read time. -/
theorem C5_klineCache_ttl_hit_then_lazy_eviction (store : KlineCacheStore)
    (t now : Rat) (key interval : String) (data : List Kline) :
    (now - t < (klineTTL interval : Rat) →
      KlineCache.get (KlineCache.set store t key interval data) now key
          interval =
        (some data, KlineCache.set store t key interval data)) ∧
    (now - t > (klineTTL interval : Rat) →
      (KlineCache.get (KlineCache.set store t key interval data) now key
          interval).1 = none ∧
      (KlineCache.get (KlineCache.set store t key interval data) now key
          interval).2 (key ++ ":" ++ interval) = none) := by
  constructor
  · intro hlt
    have hnot : ¬ now - t > (klineTTL interval : Rat) := by linarith
    simp [KlineCache.get, KlineCache.set, hnot]
  · intro hgt
    simp [KlineCache.get, KlineCache.set, hgt]

/-- Witness for C5: a "1h" entry (TTL 900 s) set at time 0 is a hit at
t = 899 and a miss (with the entry deleted) at t = 901. -/
theorem C5_klineCache_ttl_hit_then_lazy_eviction_witness :
    KlineCache.get
        (KlineCache.set (fun _ => none) 0 "BTCUSDT:2" "1h"
          [⟨0, 1, 2, 1, 2, 10, 59, 20, 3⟩]) 899 "BTCUSDT:2" "1h" =
      (some [⟨0, 1, 2, 1, 2, 10, 59, 20, 3⟩],
        KlineCache.set (fun _ => none) 0 "BTCUSDT:2" "1h"
          [⟨0, 1, 2, 1, 2, 10, 59, 20, 3⟩]) ∧
    (KlineCache.get
        (KlineCache.set (fun _ => none) 0 "BTCUSDT:2" "1h"
          [⟨0, 1, 2, 1, 2, 10, 59, 20, 3⟩]) 901 "BTCUSDT:2" "1h").1 = none ∧
    (KlineCache.get
        (KlineCache.set (fun _ => none) 0 "BTCUSDT:2" "1h"
          [⟨0, 1, 2, 1, 2, 10, 59, 20, 3⟩]) 901 "BTCUSDT:2" "1h").2
        ("BTCUSDT:2" ++ ":" ++ "1h") = none := by
  refine ⟨?_, ?_⟩
  · exact (C5_klineCache_ttl_hit_then_lazy_eviction (fun _ => none) 0 899
      "BTCUSDT:2" "1h" [⟨0, 1, 2, 1, 2, 10, 59, 20, 3⟩]).1
      (by rw [show klineTTL "1h" = 900 from by decide]; norm_num)
  · exact (C5_klineCache_ttl_hit_then_lazy_eviction (fun _ => none) 0 901
      "BTCUSDT:2" "1h" [⟨0, 1, 2, 1, 2, 10, 59, 20, 3⟩]).2
      (by rw [show klineTTL "1h" = 900 from by decide]; norm_num)

/-- Interval durations in seconds for the granularity labels the source's
TTL table covers (docstring of `get_klines`, line 258: periods
"1m, 15m, 1h, 4h, 1d"); one granularity is finer than another when its
interval duration is shorter. -/
def granularitySeconds : List (String × Nat) :=
  [("1m", 60), ("15m", 900), ("1h", 3600), ("4h", 14400), ("1d", 86400)]

/-- Claim C6.  The TTL a cache entry receives depends on the granularity
alone: the hit/miss outcome of a read is unchanged under any change of
cache key (symbol and requested count) and stored series.  And across the
TTL table, a finer granularity (shorter interval) never gets a longer TTL
than a coarser one. -/
theorem C6_klineTTL_granularity_monotone :
    (∀ (k1 k2 : String) (d1 d2 : List Kline) (t now : Rat) (i : String),
      KlineCache.isHit (KlineCache.set (fun _ => none) t k1 i d1) now k1 i =
        KlineCache.isHit (KlineCache.set (fun _ => none) t k2 i d2) now k2 i) ∧
    (∀ p1 p2, p1 ∈ granularitySeconds → p2 ∈ granularitySeconds →
      p1.2 < p2.2 → klineTTL p1.1 ≤ klineTTL p2.1) := by
  constructor
  · intro k1 k2 d1 d2 t now i
    by_cases h : now - t > (klineTTL i : Rat)
    · simp [KlineCache.isHit, KlineCache.get, KlineCache.set, h]
    · simp [KlineCache.isHit, KlineCache.get, KlineCache.set, h]
  · intro p1 p2 h1 h2
    fin_cases h1 <;> fin_cases h2 <;> decide

/-- Witness for C6: the hit/miss decision agrees across two distinct
(symbol, count) keys and series, and the "1m" TTL (30 s) does not exceed
the "1d" TTL (7200 s). -/
theorem C6_klineTTL_granularity_monotone_witness :
    KlineCache.isHit
        (KlineCache.set (fun _ => none) 0 "BTCUSDT:2" "1h"
          [⟨0, 1, 2, 1, 2, 10, 59, 20, 3⟩]) 100 "BTCUSDT:2" "1h" =
      KlineCache.isHit
        (KlineCache.set (fun _ => none) 0 "ETHUSDT:500" "1h" []) 100
        "ETHUSDT:500" "1h" ∧
    klineTTL "1m" ≤ klineTTL "1d" := by
  constructor
  · exact C6_klineTTL_granularity_monotone.1 "BTCUSDT:2" "ETHUSDT:500"
      [⟨0, 1, 2, 1, 2, 10, 59, 20, 3⟩] [] 0 100 "1h"
  · exact C6_klineTTL_granularity_monotone.2 ("1m", 60) ("1d", 86400)
      (by decide) (by decide) (by decide)

/-! ### WebSocket stream handling (claims C7 and C10)

`BinanceWebSocketClient._handle_ticker_message` (lines 363-385) reads the
ticker dict's fields with `message.get(..., 0)` and converts each through
`float(...)`.  A field value is modelled as either a number or a value on
which `float()` raises (e.g. a non-numeric string). -/

/-- A JSON value in a numeric field position: either a number (so `float`
succeeds) or something `float()` rejects. -/
inductive PyVal where
  | num (x : Rat)
  | nonNumeric
deriving DecidableEq

/-- `float(v)`: succeeds exactly on numeric values. -/
def pyFloat : PyVal → Option Rat
  | .num x => some x
  | .nonNumeric => none

/-- `float(message.get(field, 0))`: a missing field defaults to `0`. -/
def convField (v : Option PyVal) : Option Rat :=
  pyFloat (v.getD (.num 0))

/-- The ticker dict as consumed by `_handle_ticker_message`: symbol `s`
and the numeric fields `c, p, P, h, l, v, q` (each possibly missing). -/
structure TickerMsg where
  s : Option String
  c : Option PyVal
  p : Option PyVal
  P : Option PyVal
  h : Option PyVal
  l : Option PyVal
  v : Option PyVal
  q : Option PyVal
deriving DecidableEq

/-- The seven `float(message.get(...))` conversions of the
`Ticker24h(...)` constructor call (lines 376-385); `none` when any one of
them raises. -/
def tickerFields (m : TickerMsg) : Option (Rat × Rat × Rat × Rat × Rat × Rat × Rat) :=
  match convField m.p, convField m.P, convField m.c, convField m.h,
      convField m.l, convField m.v, convField m.q with
  | some pv, some Pv, some cv, some hv, some lv, some vv, some qv =>
    some (pv, Pv, cv, hv, lv, vv, qv)
  | _, _, _, _, _, _, _ => none

/-- The two per-symbol tables owned by `BinanceWebSocketClient`:
`_prices` and `_tickers` (lines 336-337). -/
structure WsTables where
  prices : String → Option CryptoPrice
  tickers : String → Option Ticker24h

/-- Python dict assignment `table[key] = value` on a function map. -/
def updateMap (f : String → Option α) (key : String) (v : α) :
    String → Option α :=
  fun k => if k = key then some v else f k

/-- `_handle_ticker_message(message)` (lines 363-385).  Returns the tables
after the call and whether the call raised (an uncaught `float()`
`ValueError`).  Mirrors the statement order of the source: a missing or
empty symbol returns early; the `_prices` assignment happens before the
`Ticker24h` construction, so a conversion failure inside the latter
leaves `_prices` already updated. -/
def handle_ticker_message (nowIso : String) (st : WsTables) (m : TickerMsg) :
    WsTables × Bool :=
  match m.s with
  | none => (st, false)
  | some s =>
    if s = "" then (st, false)
    else
      match convField m.c with
      | none => (st, true)
      | some cval =>
        let st1 : WsTables :=
          { st with prices := updateMap st.prices s ⟨s, cval, nowIso⟩ }
        match tickerFields m with
        | none => (st1, true)
        | some (pv, Pv, cv, hv, lv, vv, qv) =>
          ({ st1 with
              tickers := updateMap st1.tickers s ⟨s, pv, Pv, cv, hv, lv, vv, qv⟩ },
            false)

/-- One inbound WebSocket frame as seen by the receive loop of `_connect`
(lines 402-410): either text that fails `json.loads`, or a parsed dict. -/
inductive WsInbound where
  | badJson
  | msg (m : TickerMsg)
deriving DecidableEq

/-- The per-record step of the receive loop (lines 406-410).  Only
`json.JSONDecodeError` is caught there; an exception escaping
`_handle_ticker_message` propagates out of the connection's `async for`
and is caught by the per-connection handlers (lines 412-415), tearing the
connection down.  Returns the tables after the record and whether the
loop keeps consuming records on the same connection. -/
def processRecord (nowIso : String) (st : WsTables) (r : WsInbound) :
    WsTables × Bool :=
  match r with
  | .badJson => (st, true)
  | .msg m =>
    ((handle_ticker_message nowIso st m).1,
      !(handle_ticker_message nowIso st m).2)

/-- Whether a record parses into a (symbol, price, ticker) update: valid
JSON, a nonempty symbol, and all seven numeric conversions succeeding. -/
def parsesToUpdate (r : WsInbound) : Bool :=
  match r with
  | .badJson => false
  | .msg m =>
    match m.s with
    | none => false
    | some s => !(s = "") && (tickerFields m).isSome

/-- Counterexample to claim C7 as stated.  The record
`{"s": "BTCUSDT", "c": 5, "p": <non-numeric>}` fails to parse into an
update (the `float` conversion of "p" raises), yet it is not dropped with
the tables unchanged: the price table has already been overwritten when
the exception escapes, and the receive loop does not continue on the same
connection — the uncaught `ValueError` tears the connection down. -/
theorem C7_malformed_record_not_dropped_cex :
    parsesToUpdate (.msg ⟨some "BTCUSDT", some (.num 5), some .nonNumeric,
        none, none, none, none, none⟩) = false ∧
    (processRecord "t0" ⟨fun _ => none, fun _ => none⟩
        (.msg ⟨some "BTCUSDT", some (.num 5), some .nonNumeric,
          none, none, none, none, none⟩)).2 = false ∧
    (processRecord "t0" ⟨fun _ => none, fun _ => none⟩
        (.msg ⟨some "BTCUSDT", some (.num 5), some .nonNumeric,
          none, none, none, none, none⟩)).1.prices "BTCUSDT" =
      some ⟨"BTCUSDT", 5, "t0"⟩ := by
  refine ⟨rfl, rfl, rfl⟩

/-- Claim C7, amended.  A record that fails JSON decoding, or whose symbol
field is missing or empty, is dropped with both tables unchanged and the
loop continues on the same connection.  A record that parses into a full
update is applied and the loop continues.  But a JSON record with a
nonempty symbol whose numeric conversion fails raises out of the
per-record handler: the connection is torn down (the loop resumes only by
reconnecting), the ticker table is left unchanged, and — when the "c"
conversion failed — both tables are unchanged.  No case is fatal to the
process: the outer handlers of `_connect` catch everything. -/
theorem C7_malformed_record_amended (nowIso : String) (st : WsTables)
    (r : WsInbound) :
    (r = .badJson → processRecord nowIso st r = (st, true)) ∧
    (∀ m, r = .msg m → (m.s = none ∨ m.s = some "") →
      processRecord nowIso st r = (st, true)) ∧
    (parsesToUpdate r = true → (processRecord nowIso st r).2 = true) ∧
    (∀ m s, r = .msg m → m.s = some s → s ≠ "" → parsesToUpdate r = false →
      (processRecord nowIso st r).2 = false ∧
      (processRecord nowIso st r).1.tickers = st.tickers ∧
      (convField m.c = none → (processRecord nowIso st r).1 = st)) := by
  refine ⟨fun hb => ?_, fun m hm hs => ?_, fun hp => ?_, fun m s hm hs hne hp => ?_⟩
  · subst hb
    rfl
  · subst hm
    rcases hs with h | h <;> simp [processRecord, handle_ticker_message, h]
  · cases r with
    | badJson => simp [parsesToUpdate] at hp
    | msg m =>
      simp only [parsesToUpdate] at hp
      cases hsy : m.s with
      | none => rw [hsy] at hp; simp at hp
      | some s =>
        rw [hsy] at hp
        simp only [Bool.and_eq_true, Bool.not_eq_true', decide_eq_false_iff_not,
          Option.isSome_iff_exists] at hp
        obtain ⟨hne, ⟨tf, htf⟩⟩ := hp
        have hc : ∃ cv, convField m.c = some cv := by
          rcases tf with ⟨pv, Pv, cv, hv, lv, vv, qv⟩
          unfold tickerFields at htf
          cases hcp : convField m.p <;> rw [hcp] at htf <;>
            cases hcP : convField m.P <;> rw [hcP] at htf <;>
            cases hcc : convField m.c <;> rw [hcc] at htf <;>
            first
              | exact absurd htf (by simp)
              | exact ⟨_, rfl⟩
        obtain ⟨cv, hcv⟩ := hc
        simp [processRecord, handle_ticker_message, hsy, hne, hcv, htf]
  · subst hm
    simp only [parsesToUpdate, hs] at hp
    cases hcv : convField m.c with
    | none =>
      refine ⟨?_, ?_, fun _ => ?_⟩ <;>
        simp [processRecord, handle_ticker_message, hs, hne, hcv]
    | some cval =>
      have htf : tickerFields m = none := by
        cases htf : tickerFields m with
        | none => rfl
        | some tf =>
          rw [htf] at hp
          simp [hne] at hp
      refine ⟨?_, ?_, fun hcontra => ?_⟩
      · simp [processRecord, handle_ticker_message, hs, hne, hcv, htf]
      · simp [processRecord, handle_ticker_message, hs, hne, hcv, htf]
      · exact Option.noConfusion hcontra

/-- Witness for the amended C7: a bad-JSON frame is dropped with the empty
tables unchanged; the full record for "ETHUSDT" is applied and the loop
continues; the "p"-non-numeric record for "BTCUSDT" ends the connection
with the ticker table untouched. -/
theorem C7_malformed_record_amended_witness :
    processRecord "t0" ⟨fun _ => none, fun _ => none⟩ .badJson =
      (⟨fun _ => none, fun _ => none⟩, true) ∧
    (processRecord "t0" ⟨fun _ => none, fun _ => none⟩
        (.msg ⟨some "ETHUSDT", some (.num 3), some (.num 1), some (.num 2),
          some (.num 9), some (.num 1), some (.num 8), some (.num 7)⟩)).2 =
      true ∧
    (processRecord "t0" ⟨fun _ => none, fun _ => none⟩
        (.msg ⟨some "BTCUSDT", some (.num 5), some .nonNumeric,
          none, none, none, none, none⟩)).2 = false ∧
    (processRecord "t0" ⟨fun _ => none, fun _ => none⟩
        (.msg ⟨some "BTCUSDT", some (.num 5), some .nonNumeric,
          none, none, none, none, none⟩)).1.tickers =
      (⟨fun _ => none, fun _ => none⟩ : WsTables).tickers := by
  refine ⟨?_, ?_, ?_, ?_⟩
  · exact (C7_malformed_record_amended "t0" ⟨fun _ => none, fun _ => none⟩
      .badJson).1 rfl
  · exact (C7_malformed_record_amended "t0" ⟨fun _ => none, fun _ => none⟩
      (.msg ⟨some "ETHUSDT", some (.num 3), some (.num 1), some (.num 2),
        some (.num 9), some (.num 1), some (.num 8), some (.num 7)⟩)).2.2.1
      (by decide)
  · exact ((C7_malformed_record_amended "t0" ⟨fun _ => none, fun _ => none⟩
      (.msg ⟨some "BTCUSDT", some (.num 5), some .nonNumeric,
        none, none, none, none, none⟩)).2.2.2 _ "BTCUSDT" rfl rfl
      (by decide) (by decide)).1
  · exact ((C7_malformed_record_amended "t0" ⟨fun _ => none, fun _ => none⟩
      (.msg ⟨some "BTCUSDT", some (.num 5), some .nonNumeric,
        none, none, none, none, none⟩)).2.2.2 _ "BTCUSDT" rfl rfl
      (by decide) (by decide)).2.1

/-- Destructuring a successful `tickerFields` into its per-field
conversions. -/
theorem tickerFields_eq_some (m : TickerMsg) (pv Pv cv hv lv vv qv : Rat)
    (htf : tickerFields m = some (pv, Pv, cv, hv, lv, vv, qv)) :
    convField m.p = some pv ∧ convField m.P = some Pv ∧
    convField m.c = some cv ∧ convField m.h = some hv ∧
    convField m.l = some lv ∧ convField m.v = some vv ∧
    convField m.q = some qv := by
  unfold tickerFields at htf
  split at htf
  · simp only [Option.some.injEq, Prod.mk.injEq] at htf
    obtain ⟨h1, h2, h3, h4, h5, h6, h7⟩ := htf
    subst_vars
    refine ⟨?_, ?_, ?_, ?_, ?_, ?_, ?_⟩ <;> assumption
  · exact Option.noConfusion htf

/-- Claim C10.  Handling one well-formed ticker record is a per-symbol
frame update: a missing or empty symbol leaves both tables untouched and
raises nothing; a record for symbol `s` whose seven numeric conversions
succeed (missing fields defaulting to 0) overwrites exactly the `s`
entries of the price and 24h-ticker tables with the converted values and
leaves every other symbol's entries in both tables unchanged. -/
theorem C10_handle_ticker_frame_update (nowIso : String) (st : WsTables)
    (m : TickerMsg) :
    ((m.s = none ∨ m.s = some "") →
      handle_ticker_message nowIso st m = (st, false)) ∧
    (∀ s pv Pv cv hv lv vv qv, m.s = some s → s ≠ "" →
      tickerFields m = some (pv, Pv, cv, hv, lv, vv, qv) →
      (handle_ticker_message nowIso st m).2 = false ∧
      (handle_ticker_message nowIso st m).1.prices s =
        some ⟨s, cv, nowIso⟩ ∧
      (handle_ticker_message nowIso st m).1.tickers s =
        some ⟨s, pv, Pv, cv, hv, lv, vv, qv⟩ ∧
      (∀ s2, s2 ≠ s → (handle_ticker_message nowIso st m).1.prices s2 =
        st.prices s2 ∧
        (handle_ticker_message nowIso st m).1.tickers s2 = st.tickers s2)) := by
  constructor
  · intro hs
    rcases hs with h | h <;> simp [handle_ticker_message, h]
  · intro s pv Pv cv hv lv vv qv hs hne htf
    have hcc : convField m.c = some cv :=
      (tickerFields_eq_some m pv Pv cv hv lv vv qv htf).2.2.1
    refine ⟨?_, ?_, ?_, fun s2 hs2 => ⟨?_, ?_⟩⟩
    · simp [handle_ticker_message, hs, hne, hcc, htf]
    · simp [handle_ticker_message, hs, hne, hcc, htf, updateMap]
    · simp [handle_ticker_message, hs, hne, hcc, htf, updateMap]
    · simp [handle_ticker_message, hs, hne, hcc, htf, updateMap, hs2]
    · simp [handle_ticker_message, hs, hne, hcc, htf, updateMap, hs2]

/-- Witness for C10: a record for "BTCUSDT" with only "c" and "h" present
stores price 5 and a ticker whose missing fields are 0, and leaves the
pre-existing "ETHUSDT" entries of both tables untouched. -/
theorem C10_handle_ticker_frame_update_witness :
    (handle_ticker_message "t0"
        ⟨fun s => if s = "ETHUSDT" then some ⟨"ETHUSDT", 9, "t9"⟩ else none,
          fun s => if s = "ETHUSDT" then some ⟨"ETHUSDT", 1, 1, 1, 1, 1, 1, 1⟩
            else none⟩
        ⟨some "BTCUSDT", some (.num 5), none, none, some (.num 6), none, none,
          none⟩).2 = false ∧
    (handle_ticker_message "t0"
        ⟨fun s => if s = "ETHUSDT" then some ⟨"ETHUSDT", 9, "t9"⟩ else none,
          fun s => if s = "ETHUSDT" then some ⟨"ETHUSDT", 1, 1, 1, 1, 1, 1, 1⟩
            else none⟩
        ⟨some "BTCUSDT", some (.num 5), none, none, some (.num 6), none, none,
          none⟩).1.prices "BTCUSDT" = some ⟨"BTCUSDT", 5, "t0"⟩ ∧
    (handle_ticker_message "t0"
        ⟨fun s => if s = "ETHUSDT" then some ⟨"ETHUSDT", 9, "t9"⟩ else none,
          fun s => if s = "ETHUSDT" then some ⟨"ETHUSDT", 1, 1, 1, 1, 1, 1, 1⟩
            else none⟩
        ⟨some "BTCUSDT", some (.num 5), none, none, some (.num 6), none, none,
          none⟩).1.tickers "BTCUSDT" =
      some ⟨"BTCUSDT", 0, 0, 5, 6, 0, 0, 0⟩ ∧
    (handle_ticker_message "t0"
        ⟨fun s => if s = "ETHUSDT" then some ⟨"ETHUSDT", 9, "t9"⟩ else none,
          fun s => if s = "ETHUSDT" then some ⟨"ETHUSDT", 1, 1, 1, 1, 1, 1, 1⟩
            else none⟩
        ⟨some "BTCUSDT", some (.num 5), none, none, some (.num 6), none, none,
          none⟩).1.prices "ETHUSDT" = some ⟨"ETHUSDT", 9, "t9"⟩ ∧
    (handle_ticker_message "t0"
        ⟨fun s => if s = "ETHUSDT" then some ⟨"ETHUSDT", 9, "t9"⟩ else none,
          fun s => if s = "ETHUSDT" then some ⟨"ETHUSDT", 1, 1, 1, 1, 1, 1, 1⟩
            else none⟩
        ⟨some "BTCUSDT", some (.num 5), none, none, some (.num 6), none, none,
          none⟩).1.tickers "ETHUSDT" = some ⟨"ETHUSDT", 1, 1, 1, 1, 1, 1, 1⟩ := by
  have h := (C10_handle_ticker_frame_update "t0"
    ⟨fun s => if s = "ETHUSDT" then some ⟨"ETHUSDT", 9, "t9"⟩ else none,
      fun s => if s = "ETHUSDT" then some ⟨"ETHUSDT", 1, 1, 1, 1, 1, 1, 1⟩
        else none⟩
    ⟨some "BTCUSDT", some (.num 5), none, none, some (.num 6), none, none,
      none⟩).2 "BTCUSDT" 0 0 5 6 0 0 0 rfl (by decide) rfl
  have hfr := h.2.2.2 "ETHUSDT" (by decide)
  exact ⟨h.1, h.2.1, h.2.2.1, hfr.1, hfr.2⟩

/-! ### WebSocket client lifecycle (claims C8 and C9) -/

/-- The mutable state of one `BinanceWebSocketClient` (lines 334-340), with
the `_task` handle modelled as an opaque task identifier. -/
structure WsClientState where
  symbols : List String
  tables : WsTables
  wsOpen : Bool
  running : Bool
  task : Option Nat

/-- `BinanceWebSocketClient.__init__(symbols)` (lines 334-340): empty
caches, no connection, not running, no task. -/
def wsInit (symbols : List String) : WsClientState :=
  ⟨symbols, ⟨fun _ => none, fun _ => none⟩, false, false, none⟩

/-- `start()` (lines 424-431): a no-op when `_running` is already set;
otherwise sets the flag and creates the receive-loop task.  `newTaskId`
names the task `asyncio.create_task` would hand back; the boolean reports
whether a new receive loop was launched. -/
def wsStart (s : WsClientState) (newTaskId : Nat) : WsClientState × Bool :=
  if s.running then (s, false)
  else ({ s with running := true, task := some newTaskId }, true)

/-- `stop()` (lines 433-449) as a state transformer: clear `_running`,
close and clear the connection if one is open, cancel/await/clear the
task if one exists.  (The blocking-until-terminated aspect of the embedded
`await` is treated separately by the step-relation model below.) -/
def wsStop (s : WsClientState) : WsClientState :=
  let s1 := { s with running := false }
  let s2 := if s1.wsOpen then { s1 with wsOpen := false } else s1
  match s2.task with
  | some _ => { s2 with task := none }
  | none => s2

/-- Claim C9.  A second `start()` on a running client launches no second
receive loop and leaves the state exactly as it was; `stop()` on a
never-started client is a no-op returning the initial state unchanged. -/
theorem C9_ws_start_idempotent_stop_noop (s : WsClientState)
    (id1 id2 : Nat) (symbols : List String) :
    wsStart (wsStart s id1).1 id2 = ((wsStart s id1).1, false) ∧
    wsStop (wsInit symbols) = wsInit symbols := by
  constructor
  · by_cases h : s.running
    · simp [wsStart, h]
    · simp [wsStart, h]
  · rfl

/-- The receive-loop task's lifecycle phases as the event loop sees them:
never created, suspended-and-consuming, cancellation requested but not yet
delivered, or exited. -/
inductive TaskPhase where
  | notStarted
  | active
  | cancelRequested
  | finished
deriving DecidableEq

/-- Joint state of one `stop()` call and the receive loop of `_connect`
(lines 387-449).  `stopPC` is the progress of the `stop()` coroutine:
0 = not begun, 1 = after `self._running = False`, 2 = after the
`_ws.close()` block, 3 = after `task.cancel()`, 4 = `stop()` returned.
`writes` counts table mutations performed by the loop. -/
structure SysState where
  running : Bool
  wsOpen : Bool
  task : TaskPhase
  writes : Nat
  stopPC : Nat
deriving DecidableEq

/-- Labels of the cooperative steps. -/
inductive SysLabel where
  | recvWrite
  | recvExit
  | connLost
  | cancelHit
  | stopSetFlag
  | stopCloseWs
  | stopCancel
  | stopSkipAwait
  | stopAwait
deriving DecidableEq

/-- One cooperative step of the loop task or the `stop()` coroutine.
Loop steps follow lines 396-422: a delivered record is handled (a table
write) only while `_running` holds; with the flag cleared the loop breaks
and the task ends; a connection error keeps the task alive for the
reconnect sleep while `_running` holds and otherwise ends the task; a
requested cancellation is delivered at the next suspension point and ends
the task (`CancelledError` is not caught by the loop's handlers).  Stop
steps follow lines 433-449; the `await self._task` step `stopAwait` is
enabled only once the task has exited — that is the asyncio contract of
awaiting a task. -/
inductive SysStep : SysState → SysLabel → SysState → Prop where
  | recvWrite (s : SysState) : s.task = .active → s.running = true →
      SysStep s .recvWrite { s with writes := s.writes + 1 }
  | recvExit (s : SysState) : s.task = .active → s.running = false →
      SysStep s .recvExit { s with task := .finished }
  | connLost (s : SysState) : s.task = .active →
      SysStep s .connLost
        (if s.running then s else { s with task := .finished })
  | cancelHit (s : SysState) : s.task = .cancelRequested →
      SysStep s .cancelHit { s with task := .finished }
  | stopSetFlag (s : SysState) : s.stopPC = 0 →
      SysStep s .stopSetFlag { s with running := false, stopPC := 1 }
  | stopCloseWs (s : SysState) : s.stopPC = 1 →
      SysStep s .stopCloseWs { s with wsOpen := false, stopPC := 2 }
  | stopCancelActive (s : SysState) : s.stopPC = 2 → s.task = .active →
      SysStep s .stopCancel { s with task := .cancelRequested, stopPC := 3 }
  | stopCancelSettled (s : SysState) : s.stopPC = 2 →
      s.task = .cancelRequested ∨ s.task = .finished →
      SysStep s .stopCancel { s with stopPC := 3 }
  | stopSkipAwait (s : SysState) : s.stopPC = 2 → s.task = .notStarted →
      SysStep s .stopSkipAwait { s with stopPC := 4 }
  | stopAwait (s : SysState) : s.stopPC = 3 → s.task = .finished →
      SysStep s .stopAwait { s with task := .notStarted, stopPC := 4 }

/-- Interleavings of the two coroutines, as label-listed step chains. -/
inductive SysTrace : SysState → List SysLabel → SysState → Prop where
  | nil (s : SysState) : SysTrace s [] s
  | cons {s s1 s2 : SysState} {l : SysLabel} {ls : List SysLabel} :
      SysStep s l s1 → SysTrace s1 ls s2 → SysTrace s (l :: ls) s2

/-- The stop-returned invariant: once `stop()` has returned, the loop task
does not exist any more. -/
def StopInv (s : SysState) : Prop := s.stopPC = 4 → s.task = TaskPhase.notStarted

/-- Every step preserves the stop-returned invariant. -/
theorem sysStep_preserves_stopInv {s s1 : SysState} {l : SysLabel}
    (hstep : SysStep s l s1) (hinv : StopInv s) : StopInv s1 := by
  cases hstep with
  | recvWrite ht hr => intro h4; exact hinv h4
  | recvExit ht hr =>
    intro h4
    have hns := hinv h4
    rw [ht] at hns
    exact absurd hns (by simp)
  | connLost ht =>
    by_cases hr : s.running
    · simp only [if_pos hr]
      exact hinv
    · simp only [if_neg hr]
      intro h4
      have hns := hinv h4
      rw [ht] at hns
      exact absurd hns (by simp)
  | cancelHit ht =>
    intro h4
    have hns := hinv h4
    rw [ht] at hns
    exact absurd hns (by simp)
  | stopSetFlag hpc => intro h4; simp at h4
  | stopCloseWs hpc => intro h4; simp at h4
  | stopCancelActive hpc hta => intro h4; simp at h4
  | stopCancelSettled hpc hta => intro h4; simp at h4
  | stopSkipAwait hpc hta => intro _; exact hta
  | stopAwait hpc hta => intro _; rfl

/-- Traces preserve the stop-returned invariant. -/
theorem sysTrace_preserves_stopInv {s s1 : SysState} {ls : List SysLabel}
    (htr : SysTrace s ls s1) (hinv : StopInv s) : StopInv s1 := by
  induction htr with
  | nil s => exact hinv
  | cons hstep _ ih => exact ih (sysStep_preserves_stopInv hstep hinv)

/-- From a state without a live task, a step never writes the tables and
never revives the task. -/
theorem sysStep_no_write_of_no_task {s s1 : SysState} {l : SysLabel}
    (hstep : SysStep s l s1) (ht : s.task ≠ TaskPhase.active) :
    l ≠ SysLabel.recvWrite ∧ s1.task ≠ TaskPhase.active ∧
      s1.writes = s.writes := by
  cases hstep with
  | recvWrite hta hr => exact absurd hta ht
  | recvExit hta hr => exact absurd hta ht
  | connLost hta => exact absurd hta ht
  | cancelHit hta =>
    refine ⟨by simp, by simp, rfl⟩
  | stopSetFlag hpc => exact ⟨by simp, ht, rfl⟩
  | stopCloseWs hpc => exact ⟨by simp, ht, rfl⟩
  | stopCancelActive hpc hta => exact absurd hta ht
  | stopCancelSettled hpc hta => exact ⟨by simp, ht, rfl⟩
  | stopSkipAwait hpc hta => exact ⟨by simp, ht, rfl⟩
  | stopAwait hpc hta => exact ⟨by simp, by simp, rfl⟩

/-- Once the task is gone, no trace step writes and the counter is frozen. -/
theorem sysTrace_no_write_of_no_task {s s1 : SysState} {ls : List SysLabel}
    (htr : SysTrace s ls s1) (ht : s.task ≠ TaskPhase.active) :
    SysLabel.recvWrite ∉ ls ∧ s1.writes = s.writes := by
  induction htr with
  | nil s => exact ⟨by simp, rfl⟩
  | cons hstep _ ih =>
    obtain ⟨hl, hta, hw⟩ := sysStep_no_write_of_no_task hstep ht
    obtain ⟨hmem, hwr⟩ := ih hta
    refine ⟨?_, by rw [hwr, hw]⟩
    intro hcontra
    rcases List.mem_cons.mp hcontra with h | h
    · exact hl h.symm
    · exact hmem h

/-- Claim C8.  In every execution that starts with `stop()` not yet begun,
once `stop()` has returned the receive-loop task has fully terminated
(its handle is cleared), and no later step writes the Quote/Stats24h
tables: the write counter never moves again. -/
theorem C8_stop_blocks_until_loop_done (s0 s1 s2 : SysState)
    (ls1 ls2 : List SysLabel) (h0 : s0.stopPC = 0)
    (htr1 : SysTrace s0 ls1 s1) (hret : s1.stopPC = 4)
    (htr2 : SysTrace s1 ls2 s2) :
    s1.task = TaskPhase.notStarted ∧ SysLabel.recvWrite ∉ ls2 ∧
      s2.writes = s1.writes := by
  have hinv0 : StopInv s0 := by
    intro h4
    rw [h0] at h4
    exact absurd h4 (by simp)
  have hinv1 := sysTrace_preserves_stopInv htr1 hinv0
  have htask : s1.task = TaskPhase.notStarted := hinv1 hret
  have hnw := sysTrace_no_write_of_no_task htr2 (by rw [htask]; simp)
  exact ⟨htask, hnw.1, hnw.2⟩

/-- Witness for C8: a concrete run — `stop()` clears the flag, closes the
socket, cancels the task; the cancellation lands at the loop's next
suspension point; the `await` then completes and `stop()` returns with the
task gone and the write counter frozen. -/
theorem C8_stop_blocks_until_loop_done_witness :
    (⟨false, false, TaskPhase.notStarted, 0, 4⟩ : SysState).task =
      TaskPhase.notStarted ∧
    SysLabel.recvWrite ∉ ([] : List SysLabel) ∧
    (⟨false, false, TaskPhase.notStarted, 0, 4⟩ : SysState).writes =
      (⟨false, false, TaskPhase.notStarted, 0, 4⟩ : SysState).writes := by
  refine C8_stop_blocks_until_loop_done
    ⟨true, true, TaskPhase.active, 0, 0⟩
    ⟨false, false, TaskPhase.notStarted, 0, 4⟩
    ⟨false, false, TaskPhase.notStarted, 0, 4⟩
    [.stopSetFlag, .stopCloseWs, .stopCancel, .cancelHit, .stopAwait] []
    rfl ?_ rfl (SysTrace.nil _)
  refine SysTrace.cons (SysStep.stopSetFlag _ rfl) ?_
  refine SysTrace.cons (SysStep.stopCloseWs _ rfl) ?_
  refine SysTrace.cons (SysStep.stopCancelActive _ rfl rfl) ?_
  refine SysTrace.cons (SysStep.cancelHit _ rfl) ?_
  exact SysTrace.cons (SysStep.stopAwait _ rfl rfl) (SysTrace.nil _)
